import Mathlib

/-!
Verification development for BeeRef's document-persistence subsystem
(`beeref/fileio/sql.py`, `beeref/items.py`, `beeref/gif_item.py`).

The embedding abstracts image bytes by their decode result (`Blob :=
Option Image`): a blob is `some img` when the stored bytes decode to a
non-null pixmap, `none` when decoding fails.  Geometry coordinates are
rationals.  The JSON `data` column is embedded as the structured
`Payload` type, whose constructors carry exactly the fields produced by
each item class's `get_extra_save_data`.
-/

namespace Beeref

/-- Abstract decoded image content. -/
abbrev Image := Nat

/-- A `sqlar.data` blob, abstracted by its decode result: `some img` when
`QPixmap.loadFromData` succeeds, `none` when the pixmap stays null. -/
abbrev Blob := Option Image

/-- The JSON payload stored in the `items.data` column.  Each constructor
carries the fields written by the corresponding class's
`get_extra_save_data` (`BeePixmapItem`, `BeeTextItem`, `BeeDrawItem`,
`BeeGifItem`); `error` is the `{'text': ...}` dict substituted by
`SQLiteIO.read` for rows whose pixmap failed to decode. -/
inductive Payload where
  | pixmap (filename : Option String) (opacity : ℚ) (grayscale : Bool)
      (crop : ℚ × ℚ × ℚ × ℚ) : Payload
  | text (text : String) : Payload
  | draw (path : List (ℚ × ℚ)) (pen_color : String) (pen_width : ℚ)
      (pen_style : String) : Payload
  | gif (filename : Option String) (opacity : ℚ) (current_frame : Nat) : Payload
  | error (text : String) : Payload
  deriving Repr, DecidableEq

/-- The `TYPE` tag of the item class that produces a given payload shape. -/
def Payload.ptype : Payload → String
  | .pixmap _ _ _ _ => "pixmap"
  | .text _ => "text"
  | .draw _ _ _ _ => "draw"
  | .gif _ _ _ => "gif"
  | .error _ => "error"

/-- Class-specific state of one scene item: the attributes each
`items.py` / `gif_item.py` class keeps for persistence.  For pixmap items
`pixmap` is the decoded image (`none` models a null pixmap);
`original_save_id` lives on `BeeErrorItem` only. -/
inductive ItemKind where
  | pixmap (filename : Option String) (opacity : ℚ) (grayscale : Bool)
      (crop : ℚ × ℚ × ℚ × ℚ) (pixmap : Blob) : ItemKind
  | text (text : String) : ItemKind
  | draw (path : List (ℚ × ℚ)) (pen_color : String) (pen_width : ℚ)
      (pen_style : String) : ItemKind
  | gif (filename : Option String) (opacity : ℚ) (current_frame : Nat) : ItemKind
  | error (text : String) (original_save_id : Option Nat) : ItemKind
  deriving Repr, DecidableEq

def ItemKind.ptype : ItemKind → String
  | .pixmap _ _ _ _ _ => "pixmap"
  | .text _ => "text"
  | .draw _ _ _ _ => "draw"
  | .gif _ _ _ => "gif"
  | .error _ _ => "error"

/-- One scene item: geometry/transform state shared by all classes
(`BeeItemMixin` + QGraphicsItem) plus the class-specific `kind`. -/
structure Item where
  save_id : Option Nat
  x : ℚ
  y : ℚ
  z : ℚ
  scale : ℚ
  rotation : ℚ
  /-- raw horizontal-mirror state (±1) kept by `SelectableMixin`. -/
  flip_state : Int
  kind : ItemKind
  deriving Repr, DecidableEq

def Item.ptype (it : Item) : String := it.kind.ptype

/-- `item.flip()`: `BeeErrorItem.flip` always returns 1 (error messages
are never displayed flipped); all other classes report the mirror state. -/
def Item.flip (it : Item) : Int :=
  if it.kind.ptype = "error" then 1 else it.flip_state

/-- `do_flip`: toggles the horizontal mirror (its own inverse).
`BeeErrorItem.do_flip` is a no-op. -/
def Item.do_flip (it : Item) : Item :=
  if it.kind.ptype = "error" then it else { it with flip_state := -it.flip_state }

/-- `item.get_extra_save_data()`: the type-specific JSON payload.
Per class in `items.py` / `gif_item.py`; `BeeErrorItem` defines none
(it is never saved), embedded here as its text payload. -/
def Item.get_extra_save_data (it : Item) : Payload :=
  match it.kind with
  | .pixmap filename opacity grayscale crop _ =>
      .pixmap filename opacity grayscale crop
  | .text t => .text t
  | .draw path c w s => .draw path c w s
  | .gif filename opacity frame => .gif filename opacity frame
  | .error t _ => .error t

def Item.original_save_id (it : Item) : Option Nat :=
  match it.kind with
  | .error _ osid => osid
  | _ => none

/-- Python truthiness of `item.save_id` as used by
`if item.save_id:` in `write_data` (None and 0 are falsy). -/
def Item.save_id_truthy (it : Item) : Option Nat :=
  match it.save_id with
  | some n => if n = 0 then none else some n
  | none => none

/-- Only `BeePixmapItem` defines `pixmap_to_bytes`; `write_data`'s
`hasattr(item, 'pixmap_to_bytes')` check is true exactly for pixmap items
(`BeeGifItem` only has `gif_to_bytes`, `BeeDrawItem`/`BeeTextItem` none). -/
def Item.has_pixmap_to_bytes (it : Item) : Bool :=
  it.kind.ptype = "pixmap"

/-- `pixmap_to_bytes` result, abstracted by decode result: encoding a
pixmap yields bytes that decode back to the same image (PNG round-trip),
and a null pixmap yields bytes that fail to decode. -/
def Item.pixmap_to_bytes (it : Item) : Blob :=
  match it.kind with
  | .pixmap _ _ _ _ pm => pm
  | _ => none

/-- One row of the `items` table
(`id PK, type, x, y, z, scale, rotation, flip, data`). -/
structure ItemRow where
  id : Nat
  rtype : String
  x : ℚ
  y : ℚ
  z : ℚ
  scale : ℚ
  rotation : ℚ
  flip : Int
  data : Payload
  deriving Repr, DecidableEq

/-- One row of the `sqlar` table (`item_id, name, mode, sz, data`).
The byte length `sz` is abstracted away together with the raw bytes. -/
structure SqlarRow where
  item_id : Nat
  name : String
  mode : Nat
  data : Blob
  deriving Repr, DecidableEq

/-- The on-disk archive state: both tables plus the `user_version`
pragma.  Row order models physical table order. -/
structure Archive where
  itemsTable : List ItemRow
  sqlarTable : List SqlarRow
  user_version : Nat
  deriving Repr, DecidableEq

/-- The row ids currently present in the `items` table. -/
def Archive.ids (ar : Archive) : List Nat := ar.itemsTable.map (·.id)

/-- Largest row id in the `items` table (0 when empty). -/
def Archive.maxId (ar : Archive) : Nat := ar.ids.foldr max 0

/-- SQLite's `lastrowid` for a fresh insert: one more than the current
largest rowid. -/
def Archive.nextRowId (ar : Archive) : Nat := ar.maxId + 1

/-- Modelled from the spec: the Scene Graph (`scene.py` is not part of
the sources).  It holds the live item set and the deferred insertion
queue used during streamed loads. -/
structure Scene where
  items : List Item
  deriving Repr, DecidableEq

/-- Modelled from the spec: `items_by_type(type) -> sequence`. -/
def Scene.items_by_type (sc : Scene) (t : String) : List Item :=
  sc.items.filter (fun it => it.ptype = t)

/-- Modelled from the spec: `items_for_save()` — stable ordering of
live, persistable items (excludes Error items). -/
def Scene.items_for_save (sc : Scene) : List Item :=
  sc.items.filter (fun it => it.ptype ≠ "error")

/-- `get_filename_for_export` (BeePixmapItem/BeeGifItem): zero-padded
save id, plus `-basename` when a source filename exists. -/
def pad4 (n : Nat) : String :=
  let s := toString n
  if s.length < 4 then String.mk (List.replicate (4 - s.length) '0') ++ s else s

/-- Index of the last occurrence of `c` in `l`, as Python's
`str.rfind` (−1 when absent). -/
def lastIdx (c : Char) (l : List Char) : Int :=
  (List.range l.length).foldl
    (fun acc i => if l.getD i ' ' = c then (i : Int) else acc) (-1)

/-- The extension part of `os.path.splitext(path)` for POSIX paths:
the suffix from the last dot of the final component, where leading dots
of the basename do not start an extension. -/
def splitextExt (p : String) : String :=
  let l := p.toList
  let sepIdx := lastIdx '/' l
  let dotIdx := lastIdx '.' l
  if sepIdx < dotIdx then
    if (List.range' (sepIdx + 1).toNat (dotIdx.toNat - (sepIdx + 1).toNat)).any
        (fun k => l.getD k ' ' ≠ '.') then
      String.mk (l.drop dotIdx.toNat)
    else ""
  else ""

/-- `get_filename_for_export` of a pixmap item: the basename of the
source filename, stripped of its extension
(`os.path.splitext(os.path.basename(...))[0]`). -/
def exportStem (f : String) : String :=
  let l := f.toList
  let base := String.mk (l.drop ((lastIdx '/' l) + 1).toNat)
  let ext := splitextExt base
  String.mk (base.toList.take (base.length - ext.length))

def Item.get_filename_for_export (it : Item) (imgformat : String) : String :=
  let sid := (it.save_id).getD 0
  match it.kind with
  | .pixmap (some f) _ _ _ _ =>
      pad4 sid ++ "-" ++ exportStem f ++ "." ++ imgformat
  | _ => pad4 sid ++ "." ++ imgformat

/-- `SQLiteIO.insert_item`: insert the items-table row, assign the new
rowid back onto the item, and insert the sqlar blob row only when the
item has `pixmap_to_bytes` (pixmap items). -/
def insert_item (ar : Archive) (it : Item) : Archive × Item :=
  let rid := ar.nextRowId
  let row : ItemRow :=
    { id := rid, rtype := it.ptype, x := it.x, y := it.y, z := it.z,
      scale := it.scale, rotation := it.rotation, flip := it.flip,
      data := it.get_extra_save_data }
  let ar1 : Archive := { ar with itemsTable := ar.itemsTable ++ [row] }
  let it1 : Item := { it with save_id := some rid }
  if it1.has_pixmap_to_bytes then
    let blob := it1.pixmap_to_bytes
    let name := it1.get_filename_for_export "png"
    (⟨ar1.itemsTable,
      ar1.sqlarTable ++ [⟨rid, name, 420, blob⟩],
      ar1.user_version⟩, it1)
  else (ar1, it1)

/-- The column assignments of `update_item`'s UPDATE statement applied
to one row: geometry and JSON data change, `id` and `type` do not. -/
def updRow (r : ItemRow) (it : Item) : ItemRow :=
  { r with x := it.x, y := it.y, z := it.z, scale := it.scale,
           rotation := it.rotation, flip := it.flip,
           data := it.get_extra_save_data }

/-- `SQLiteIO.update_item`: `UPDATE items SET x,y,z,scale,rotation,flip,
data WHERE id=save_id`.  Only the item data is updated, never the sqlar
blob; the row's `type` column is not touched either. -/
def update_item (ar : Archive) (it : Item) : Archive :=
  { ar with itemsTable := ar.itemsTable.map (fun r =>
      if some r.id = it.save_id then updRow r it else r) }

/-- `SQLiteIO.delete_items`: delete the given ids from both tables. -/
def delete_items (ar : Archive) (td : List Nat) : Archive :=
  { ar with
    itemsTable := ar.itemsTable.filter (fun r => r.id ∉ td),
    sqlarTable := ar.sqlarTable.filter (fun q => q.item_id ∉ td) }

/-- Result of `write_data`'s item loop: either every item was saved
(with the remaining delete set), or `to_delete.remove(item.save_id)`
raised `KeyError` on the given id (the archive carries all committed
mutations up to that point). -/
inductive LoopResult where
  | ok (ar : Archive) (td : List Nat) : LoopResult
  | keyError (ar : Archive) (missing : Nat) : LoopResult
  deriving Repr, DecidableEq

def LoopResult.archive : LoopResult → Archive
  | .ok ar _ => ar
  | .keyError ar _ => ar

/-- The `for item in to_save` loop of `write_data`: update items that
already have a (truthy) `save_id` and remove that id from the delete
set — an absent id raises `KeyError` — or insert new items. -/
def writeLoop : List Item → Archive → List Nat → LoopResult
  | [], ar, td => .ok ar td
  | it :: rest, ar, td =>
      match it.save_id_truthy with
      | some s =>
          let ar1 := update_item ar it
          if s ∈ td then writeLoop rest ar1 (td.erase s)
          else .keyError ar1 s
      | none => writeLoop rest (insert_item ar it).1 td

/-- The `keep` set of `write_data`: `original_save_id`s of the Error
items currently in the scene. -/
def keepIds (sc : Scene) : List Nat :=
  (sc.items_by_type "error").filterMap (·.original_save_id)

/-- The initial `to_delete` set of `write_data`: archive row ids minus
the ids protected by visible Error items (Python set semantics, hence
`dedup`). -/
def to_delete_init (sc : Scene) (ar : Archive) : List Nat :=
  ((ar.ids).filter (fun i => i ∉ keepIds sc)).dedup

/-- Result of `SQLiteIO.write_data`: either success (final archive plus
the set of ids deleted from both tables) or a `KeyError` escaping to the
error boundary (nothing is deleted in that case). -/
inductive WDResult where
  | ok (ar : Archive) (deleted : List Nat) : WDResult
  | keyError (ar : Archive) (missing : Nat) : WDResult
  deriving Repr, DecidableEq

/-- `SQLiteIO.write_data`: compute the delete delta, save every
persistable item, then delete the remaining ids and compact. -/
def write_data (sc : Scene) (ar : Archive) : WDResult :=
  match writeLoop sc.items_for_save ar (to_delete_init sc ar) with
  | .ok ar1 td => .ok (delete_items ar1 td) td
  | .keyError ar1 s => .keyError ar1 s

/-- Modelled from the spec: the generic image-loading help text appended
to per-item failure messages (`IMG_LOADING_ERROR_MSG` lives in
`fileio/errors.py`, which is not part of the sources; the spec only
requires a human-readable failure message). -/
def IMG_LOADING_ERROR_MSG : String :=
  "The file may be corrupted, in an unsupported format, or inaccessible"

/-- The failure message built by `SQLiteIO.read` for a pixmap row whose
blob fails to decode; the transient item's `filename` is still `None`
at that point, so the f-string renders `None`. -/
def img_error_text : String :=
  "Image could not be loaded: None\n" ++ IMG_LOADING_ERROR_MSG

/-- The `data` dict that `SQLiteIO.read` builds per fetched row and
hands to `scene.add_item_later`.  `transient` is the `data['item']`
entry: the pre-built `BeePixmapItem` for successfully decoded pixmap
rows (for failed ones the code stores the message string there, which
`BeeErrorItem.create_from_data` ignores — embedded as `none`). -/
structure RowData where
  save_id : Nat
  dtype : String
  x : ℚ
  y : ℚ
  z : ℚ
  scale : ℚ
  rotation : ℚ
  flip : Int
  data : Payload
  transient : Option Item
  deriving Repr, DecidableEq

/-- The two SELECTs of `SQLiteIO.read`: rows joined with their sqlar
blob (in sqlar-table order), followed by the `type = "text"` rows with a
null blob. -/
def fetchRows (ar : Archive) : List (ItemRow × Blob) :=
  (ar.sqlarTable.filterMap (fun q =>
    (ar.itemsTable.find? (fun r => r.id = q.item_id)).map (fun r => (r, q.data))))
  ++ (ar.itemsTable.filter (fun r => r.rtype = "text")).map (fun r => (r, none))

/-- A freshly constructed item with QGraphicsItem default geometry
(pos (0,0), z 0, scale 1, rotation 0, unmirrored, no save id). -/
def mkItem (k : ItemKind) : Item :=
  { save_id := none, x := 0, y := 0, z := 0, scale := 1, rotation := 0,
    flip_state := 1, kind := k }

/-- `BeePixmapItem(QtGui.QImage())` followed by `pixmap_from_bytes`:
a transient pixmap item with no filename and the decoded blob. -/
def transientPixmap (pm : Blob) : Item :=
  mkItem (.pixmap none 1 false (0, 0, 0, 0) pm)

/-- The per-row decode step of `SQLiteIO.read`: build the `data` dict;
for a pixmap row, loading the blob into a fresh `BeePixmapItem` — if the
pixmap is null, switch the row to an Error item carrying a failure
message in `data['data']['text']`. -/
def decodeRow (rb : ItemRow × Blob) : RowData :=
  let r := rb.1
  let base : RowData :=
    { save_id := r.id, dtype := r.rtype, x := r.x, y := r.y, z := r.z,
      scale := r.scale, rotation := r.rotation, flip := r.flip,
      data := r.data, transient := none }
  if r.rtype = "pixmap" then
    match rb.2 with
    | some img =>
        { base with transient := some (transientPixmap (some img)) }
    | none =>
        { base with dtype := "error", data := .error img_error_text }
  else base

/-- Outcome of one `SQLiteIO.read` call: the rows handed to the scene's
deferred queue via `add_item_later`, and the `finished` event
(`filename × error list`) emitted when a worker is attached. -/
structure ReadOutcome where
  queue : List RowData
  finished : Option (String × List String)
  deriving Repr, DecidableEq

/-- The row loop of `SQLiteIO.read` under a worker: after queueing the
row at (0-based) index `i`, the worker's cancellation flag is observed;
`cancel i` is its value at that check.  A set flag stops the read and
emits `finished('', [])`. -/
def readLoop (filename : String) (cancel : Nat → Bool) :
    List (ItemRow × Blob) → Nat → List RowData → ReadOutcome
  | [], _, acc => ⟨acc, some (filename, [])⟩
  | rb :: rest, i, acc =>
      let acc1 := acc ++ [decodeRow rb]
      if cancel i then ⟨acc1, some ("", [])⟩
      else readLoop filename cancel rest (i + 1) acc1

/-- `SQLiteIO.read`: fetch all rows, decode and enqueue each; with a
worker, report progress, honour cancellation, and emit `finished`. -/
def read (ar : Archive) (filename : String)
    (worker : Option (Nat → Bool)) : ReadOutcome :=
  match worker with
  | none => ⟨(fetchRows ar).map decodeRow, none⟩
  | some cancel => readLoop filename cancel (fetchRows ar) 0 []

/-- `create_from_data`, dispatched through `item_registry` on the row's
type tag, as the scene does when activating a queued row (the dispatch
itself is modelled from the spec; each branch follows the class's
`create_from_data` in `items.py` / `gif_item.py`). -/
def create_from_data (r : RowData) : Item :=
  if r.dtype = "pixmap" then
    -- BeePixmapItem.create_from_data: reuse the transient item, fill in
    -- filename (item.filename or data['filename']), crop, opacity,
    -- grayscale from the payload dict.
    let tr := r.transient.getD (transientPixmap none)
    match r.data, tr.kind with
    | .pixmap fn op gs crop, .pixmap tfn _ _ _ pm =>
        { tr with kind := .pixmap (tfn <|> fn) op gs crop pm }
    | _, _ => tr
  else if r.dtype = "text" then
    match r.data with
    | .text t => mkItem (.text t)
    | _ => mkItem (.text "Text")
  else if r.dtype = "draw" then
    match r.data with
    | .draw path c w s => mkItem (.draw path c w s)
    | _ => mkItem (.draw [] "" 8 "solid")
  else if r.dtype = "gif" then
    match r.data with
    | .gif fn op fr => mkItem (.gif fn op fr)
    | _ => mkItem (.gif none 1 0)
  else
    -- BeeErrorItem.create_from_data: cls(**data) — text from the dict.
    match r.data with
    | .error t => mkItem (.error t none)
    | _ => mkItem (.error "Text" none)

/-- `update_from_data` with the row's stored fields:
`BeeItemMixin.update_from_data` sets save_id, pos, z, scale, rotation
and toggles the mirror when the stored flip differs;
`BeeErrorItem.update_from_data` stores the row id in `original_save_id`
instead and never flips. -/
def Item.update_from_data (it : Item) (r : RowData) : Item :=
  if it.kind.ptype = "error" then
    match it.kind with
    | .error t _ =>
        { it with x := r.x, y := r.y, z := r.z, scale := r.scale,
                  rotation := r.rotation, kind := .error t (some r.save_id) }
    | _ => it
  else
    let it1 :=
      { it with save_id := some r.save_id, x := r.x, y := r.y, z := r.z,
                scale := r.scale, rotation := r.rotation }
    if r.flip ≠ it1.flip then it1.do_flip else it1

/-- Modelled from the spec: activating one queued row
(`Scene.add_queued_items` lives in `scene.py`, not in the sources) —
reconstruct the item via `create_from_data` and apply the stored
geometry via `update_from_data`. -/
def materialize (r : RowData) : Item :=
  (create_from_data r).update_from_data r

/-! ### File identification (`is_bee_file`) -/

/-- The 16-byte SQLite magic header `b'SQLite format 3\x00'`. -/
def sqliteMagic : List Nat :=
  [83, 81, 76, 105, 116, 101, 32, 102, 111, 114, 109, 97, 116, 32, 51, 0]

/-- The on-disk situation `is_bee_file` can observe at a path: whether a
file exists there, whether opening/reading it succeeds, and its actual
bytes. -/
structure FileInfo where
  fileExists : Bool
  readable : Bool
  content : List Nat
  deriving Repr, DecidableEq

/-- `is_bee_file(path)`: falsy path → False; extension must be `.bee`;
when the file exists and the header can be read, its first 16 bytes must
equal the SQLite magic; an `IOError`/`OSError` while reading is ignored
(the file might be new) and the check passes. -/
def is_bee_file (path : String) (f : FileInfo) : Bool :=
  if path = "" then false
  else if splitextExt path ≠ ".bee" then false
  else if f.fileExists then
    if f.readable then decide (f.content.take 16 = sqliteMagic)
    else true
  else true

/-! ### Schema migration (`SQLiteIO._migrate`) -/

/-- The `for i in range(version, USER_VERSION)` loop of `_migrate`,
executing `MIGRATIONS[i + 1]` at each step.  `M` stands for the
`MIGRATIONS` table of `fileio/schema.py` (not among the sources), `uv`
for its `USER_VERSION`. -/
def migrationLoop (M : Nat → List String) (i uv : Nat) : List String :=
  if _h : i < uv then M (i + 1) ++ migrationLoop M (i + 1) uv else []
termination_by uv - i

/-- `SQLiteIO._migrate` on a file whose stored `user_version` is
`version`: nothing happens when the version is current or newer;
otherwise the pending steps run and `write_meta` rewrites the stored
version to `uv`.  Returns the executed DDL statements in order and the
resulting stored version. -/
def migrate (M : Nat → List String) (uv version : Nat) : List String × Nat :=
  if version ≥ uv then ([], version)
  else (migrationLoop M version uv, uv)

/-! ### Connection establishment and the migration fallback
(`SQLiteIO._establish_connection`, `SQLiteIO.write`'s retry loop) -/

/-- Environment of one connection attempt: whether a file exists at
`self.filename` and whether `_migrate` on it raises. -/
structure ConnEnv where
  fileExists : Bool
  migrationFails : Bool
  deriving Repr, DecidableEq

/-- The instance state `_establish_connection` reads and mutates:
`create_new`, `readonly`, the `_establishing_connection` reentrancy
guard, and whether `os.remove(self.filename)` has run. -/
structure ConnState where
  create_new : Bool
  readonly : Bool
  establishing : Bool
  fileRemoved : Bool
  deriving Repr, DecidableEq

/-- `SQLiteIO._establish_connection` (fuelled for the recursive
fallback call).  Returns the new state and whether the call completed
without raising.  The reentrancy guard raises when a nested call is in
progress; on `create_new` (writable, file present, not yet removed) the
file is deleted; when migration of an existing-schema connection fails,
the handler flips `create_new` and re-calls itself — while the guard
flag is still set, so the nested call raises and the whole call fails. -/
def establish_connection_fuel : Nat → ConnState → ConnEnv → ConnState × Bool
  | 0, st, _ => (st, false)
  | fuel + 1, st, env =>
      if st.establishing then (st, false)
      else
        let st1 : ConnState := { st with establishing := true }
        let st2 : ConnState :=
          if st1.create_new && !st1.readonly && env.fileExists && !st1.fileRemoved
          then { st1 with fileRemoved := true } else st1
        if !st2.create_new && env.migrationFails then
          let st3 : ConnState := { st2 with create_new := true }
          let inner := establish_connection_fuel fuel st3 env
          ({ inner.1 with establishing := false }, inner.2)
        else ({ st2 with establishing := false }, true)

/-- One `_establish_connection` call (the single fallback recursion
needs fuel 2). -/
def establish_connection (st : ConnState) (env : ConnEnv) : ConnState × Bool :=
  establish_connection_fuel 2 st env

/-- The connection-establishment behaviour observable from
`SQLiteIO.write`'s retry loop, starting from an existing file opened
without `create_new`: attempt 1 establishes lazily at the first query
and fails through the guard when migration fails (leaving
`create_new=True` behind); the retry handler then calls
`_establish_connection` once more before re-running the write. -/
def write_establish_retry (readonly : Bool) (env : ConnEnv) : ConnState × Bool :=
  let st0 : ConnState :=
    { create_new := false, readonly := readonly,
      establishing := false, fileRemoved := false }
  let att1 := establish_connection st0 env
  if att1.2 then att1
  else establish_connection att1.1 env

/-! ### `SQLiteIO.write` under `handle_sqlite_errors` -/

/-- The message of the `sqlite3.OperationalError` raised by `write` on
a read-only store. -/
def readonly_error_msg : String := "Attempt to write to a readonly database"

/-- A Python exception escaping the body of `read`/`write`. -/
inductive PyExc where
  | sqliteError (msg : String)
  | keyError (key : Nat)
  deriving Repr, DecidableEq

/-- `str(e)` for the exceptions above (`str` of a `KeyError` is the
`repr` of the key). -/
def PyExc.msg : PyExc → String
  | .sqliteError m => m
  | .keyError k => toString k

/-- How a finished `write` surfaces to its caller. -/
inductive WriteOutcome where
  | beeFileIOError (msg : String) (filename : String) : WriteOutcome
  | workerFinished (filename : String) (errors : List String) : WriteOutcome
  | okSync : WriteOutcome
  deriving Repr, DecidableEq

/-- The body of `SQLiteIO.write`: the read-only precondition check
comes first, before `create_schema_on_new` and `write_data`; a fresh
schema (empty tables, current version `uv`) is created when
`create_new` is set.  Returns the resulting archive and the escaping
exception, if any. -/
def write_body (readonly create_new : Bool) (uv : Nat) (sc : Scene)
    (ar : Archive) : Archive × Option PyExc :=
  if readonly then (ar, some (.sqliteError readonly_error_msg))
  else
    let ar0 : Archive :=
      if create_new then { itemsTable := [], sqlarTable := [], user_version := uv }
      else ar
    match write_data sc ar0 with
    | .ok ar1 _ => (ar1, none)
    | .keyError ar1 s => (ar1, some (.keyError s))

/-- `handle_sqlite_errors`: exceptions from the wrapped body are caught
at the boundary; with a worker the failure goes through
`finished(filename, [str(e)])`, otherwise a `BeeFileIOError(msg,
filename)` is raised — callers never see the raw exception type.  On
success the worker's `finished(filename, [])` was emitted by the body. -/
def handle_sqlite_errors (hasWorker : Bool) (filename : String)
    (result : Archive × Option PyExc) : Archive × WriteOutcome :=
  match result.2 with
  | none =>
      (result.1, if hasWorker then .workerFinished filename [] else .okSync)
  | some e =>
      (result.1,
       if hasWorker then .workerFinished filename [e.msg]
       else .beeFileIOError e.msg filename)

/-- `SQLiteIO.write` as observed by its caller. -/
def SQLiteIO_write (readonly create_new hasWorker : Bool) (uv : Nat)
    (filename : String) (sc : Scene) (ar : Archive) : Archive × WriteOutcome :=
  handle_sqlite_errors hasWorker filename (write_body readonly create_new uv sc ar)

/-! ### Helper projections -/

def WDResult.archive : WDResult → Archive
  | .ok ar _ => ar
  | .keyError ar _ => ar

/-- The ids actually deleted from both tables by `write_data`
(`delete_items` never runs when `KeyError` escapes). -/
def WDResult.deletedIds : WDResult → List Nat
  | .ok _ deleted => deleted
  | .keyError _ _ => []

def WDResult.isKeyError : WDResult → Bool
  | .ok _ _ => false
  | .keyError _ _ => true

def LoopResult.isKeyError : LoopResult → Bool
  | .ok _ _ => false
  | .keyError _ _ => true

/-! ## Theorems -/

/-! ### C5: migration idempotence and ordering -/

lemma migrationLoop_eq (M : Nat → List String) :
    ∀ (d i : Nat), migrationLoop M i (i + d) = (List.range' (i + 1) d).flatMap M := by
  intro d
  induction d with
  | zero =>
      intro i
      rw [migrationLoop]
      simp
  | succ d ih =>
      intro i
      rw [migrationLoop, dif_pos (by omega : i < i + (d + 1))]
      have h1 : i + (d + 1) = (i + 1) + d := by omega
      rw [h1, ih (i + 1), List.range'_succ]
      simp

/-- **C5**: opening an existing file whose stored `user_version` is at
least the current schema version executes no DDL and leaves the version
unchanged; a stored version `N` below current runs exactly the
migration steps for versions `N+1 .. current`, once each, in ascending
order, and then rewrites the stored version to current. -/
theorem c5_migration_idempotence_and_ordering (M : Nat → List String)
    (uv version : Nat) :
    (uv ≤ version → migrate M uv version = ([], version))
    ∧ (version < uv →
        migrate M uv version
          = ((List.range' (version + 1) (uv - version)).flatMap M, uv)) := by
  constructor
  · intro h
    rw [migrate, if_pos h]
  · intro h
    rw [migrate, if_neg (by omega)]
    have h2 := migrationLoop_eq M (uv - version) version
    rw [show version + (uv - version) = uv by omega] at h2
    rw [h2]

def c5_mig : Nat → List String := fun n => ["step" ++ toString n]

theorem c5_witness :
    migrate c5_mig 3 3 = ([], 3)
    ∧ migrate c5_mig 3 1 = ((List.range' 2 2).flatMap c5_mig, 3) :=
  ⟨(c5_migration_idempotence_and_ordering c5_mig 3 3).1 (by decide),
   (c5_migration_idempotence_and_ordering c5_mig 3 1).2 (by decide)⟩

/-! ### C6: read-only write precondition -/

/-- **C6**: `write` on a store opened read-only fails before any schema
creation, row mutation or retry (the archive is returned unchanged); the
failure surfaces as a `BeeFileIOError` carrying message and filename
when synchronous, or as a `finished` event with a non-empty error list
under a worker — never as a raw sqlite exception. -/
theorem c6_readonly_write_precondition (create_new hasWorker : Bool)
    (uv : Nat) (filename : String) (sc : Scene) (ar : Archive) :
    SQLiteIO_write true create_new hasWorker uv filename sc ar
      = (ar, if hasWorker then
               WriteOutcome.workerFinished filename [readonly_error_msg]
             else WriteOutcome.beeFileIOError readonly_error_msg filename) := by
  rfl

/-! ### C7: file identification -/

/-- **C7 counterexample**: an existing `.bee` file whose header cannot
be read (an `IOError` is swallowed) is accepted by `is_bee_file` even
though its actual first 16 bytes do not match the SQLite magic — the
claim's "every existing file whose header does not match yields False"
fails. -/
theorem c7_counterexample :
    is_bee_file "a.bee" ⟨true, false, [0]⟩ = true
    ∧ ((⟨true, false, [0]⟩ : FileInfo).fileExists = true)
    ∧ ¬((⟨true, false, [0]⟩ : FileInfo).content.take 16 = sqliteMagic) := by
  refine ⟨by decide, rfl, by decide⟩

/-- **C7 amended**: `is_bee_file` returns True exactly when the path's
extension is `.bee` and, whenever a file exists at the path *and its
header can be read*, the first 16 bytes equal the SQLite magic; every
path failing the extension test yields False, and every existing
*readable* file with a non-matching header yields False — an existing
file whose header cannot be read passes on the extension test alone. -/
theorem c7_amended (p : String) (f : FileInfo) :
    is_bee_file p f = true ↔
      (splitextExt p = ".bee"
       ∧ (f.fileExists = true → f.readable = true →
            f.content.take 16 = sqliteMagic)) := by
  rcases f with ⟨fe, rd, ct⟩
  by_cases hp : p = ""
  · subst hp
    have h0 : splitextExt "" = "" := rfl
    simp [is_bee_file, h0]
  · by_cases hext : splitextExt p = ".bee"
    · cases fe <;> cases rd <;>
        simp [is_bee_file, hp, hext]
    · cases fe <;> cases rd <;>
        simp [is_bee_file, hp, hext]

theorem c7_amended_witness :
    is_bee_file "b.bee" ⟨true, true, sqliteMagic⟩ = true :=
  (c7_amended "b.bee" ⟨true, true, sqliteMagic⟩).mpr
    ⟨by decide, fun _ _ => by decide⟩

/-! ### C3: the migration fallback and the file on disk -/

/-- **C3 counterexample**: for a writable store on an existing file
whose migration fails, the fallback reached through `write`'s retry
loop re-runs `_establish_connection` with `create_new=True`, which
executes `os.remove(self.filename)` — the user's original file is
deleted, not left untouched, and the retried establishment then
succeeds against a fresh file. -/
theorem c3_counterexample :
    (write_establish_retry false ⟨true, true⟩).1.fileRemoved = true
    ∧ (write_establish_retry false ⟨true, true⟩).2 = true := by
  decide

/-- **C3 amended**: a single `_establish_connection` call never removes
the file — its in-place fallback trips the reentrancy guard and raises
instead of recreating, so on the read path (no retry) the original file
is left untouched; but when that failure is caught by `write`'s retry
loop on a store opened writable, the retried establishment deletes the
original file (exactly when the file exists and migration fails);
read-only stores never have the file removed. -/
theorem c3_amended_fallback_file_effect (env : ConnEnv) :
    ((write_establish_retry false env).1.fileRemoved
        = (env.fileExists && env.migrationFails))
    ∧ (∀ ro : Bool,
        (establish_connection ⟨false, ro, false, false⟩ env).1.fileRemoved
          = false)
    ∧ (write_establish_retry true env).1.fileRemoved = false := by
  rcases env with ⟨fe, mf⟩
  cases fe <;> cases mf <;>
    exact ⟨rfl, fun ro => by cases ro <;> rfl, rfl⟩

/-! ### C1: the round-trip law -/

def c1_draw_scene : Scene := ⟨[mkItem (.draw [((0 : ℚ), (0 : ℚ))] "red" 8 "solid")]⟩

def c1_gif_scene : Scene := ⟨[mkItem (.gif (some "a.gif") 1 0)]⟩

def c1_empty_archive : Archive := ⟨[], [], 2⟩

/-- **C1** (failing evaluation): writing a scene holding a single draw
item (resp. gif item) stores one `items` row of that type but no sqlar
blob (`insert_item` only writes sqlar for items with `pixmap_to_bytes`),
and the subsequent `read` — which fetches only sqlar-joined rows plus
`type="text"` rows — hands nothing to the scene: the item does not
round-trip at all, contradicting the round-trip law for the draw and
gif variants. -/
theorem c1_draw_gif_lost_on_roundtrip :
    (write_data c1_draw_scene c1_empty_archive).archive.itemsTable.map
        (fun r => r.rtype) = ["draw"]
    ∧ (read (write_data c1_draw_scene c1_empty_archive).archive
        "doc.bee" none).queue = []
    ∧ (write_data c1_gif_scene c1_empty_archive).archive.itemsTable.map
        (fun r => r.rtype) = ["gif"]
    ∧ (read (write_data c1_gif_scene c1_empty_archive).archive
        "doc.bee" none).queue = [] := by
  decide

/-! ### Read-loop lemmas -/

lemma readLoop_nocancel_eq (filename : String) :
    ∀ (rows : List (ItemRow × Blob)) (start : Nat) (acc : List RowData),
      readLoop filename (fun _ => false) rows start acc
        = ⟨acc ++ rows.map decodeRow, some (filename, [])⟩ := by
  intro rows
  induction rows with
  | nil =>
      intro start acc
      rw [readLoop]
      simp
  | cons rb rest ih =>
      intro start acc
      rw [readLoop]
      simp only [Bool.false_eq_true, if_false, ih]
      simp

lemma readLoop_cancel_eq (filename : String) (cancel : Nat → Bool) :
    ∀ (rows : List (ItemRow × Blob)) (start : Nat) (acc : List RowData)
      (j : Nat), j < rows.length → cancel (start + j) = true →
      (∀ m, m < j → cancel (start + m) = false) →
      readLoop filename cancel rows start acc
        = ⟨acc ++ (rows.take (j + 1)).map decodeRow, some ("", [])⟩ := by
  intro rows
  induction rows with
  | nil =>
      intro start acc j hj
      simp at hj
  | cons rb rest ih =>
      intro start acc j hj hset hbef
      cases j with
      | zero =>
          rw [readLoop]
          have h0 : cancel start = true := by simpa using hset
          rw [h0]
          simp
      | succ k =>
          have h0 : cancel start = false := by
            have h1 := hbef 0 (Nat.succ_pos k)
            simpa using h1
          rw [readLoop, h0]
          simp only [Bool.false_eq_true, if_false]
          rw [ih (start + 1) (acc ++ [decodeRow rb]) k
              (by simpa using Nat.lt_of_succ_lt_succ hj)
              (by rw [show start + 1 + k = start + (k + 1) by omega]; exact hset)
              (by
                intro m hm
                rw [show start + 1 + m = start + (m + 1) by omega]
                exact hbef (m + 1) (by omega))]
          simp

/-! ### C8: read-cancellation semantics -/

/-- **C8**: when the worker's cancellation flag is first observed set
after the `i`-th row (1-based; the flag is checked once after each
queued row), `read` stops before any further row: exactly the first `i`
decoded rows have been handed to the scene's deferred queue, and the
`finished` event reports an empty filename and an empty error list. -/
theorem c8_read_cancellation (ar : Archive) (filename : String)
    (cancel : Nat → Bool) (i : Nat) (h0 : 0 < i)
    (hle : i ≤ (fetchRows ar).length) (hset : cancel (i - 1) = true)
    (hbef : ∀ m, m < i - 1 → cancel m = false) :
    read ar filename (some cancel)
      = ⟨((fetchRows ar).take i).map decodeRow, some ("", [])⟩ := by
  rw [read]
  rw [readLoop_cancel_eq filename cancel (fetchRows ar) 0 [] (i - 1)
      (by omega) (by simpa using hset)
      (by intro m hm; simpa using hbef m hm)]
  simp [show i - 1 + 1 = i by omega]

def c8_archive : Archive :=
  ⟨[⟨1, "text", 0, 0, 0, 1, 0, 1, .text "a"⟩,
    ⟨2, "text", 0, 0, 0, 1, 0, 1, .text "b"⟩,
    ⟨3, "text", 0, 0, 0, 1, 0, 1, .text "c"⟩], [], 2⟩

def c8_cancel : Nat → Bool := fun n => decide (1 ≤ n)

theorem c8_witness :
    read c8_archive "f.bee" (some c8_cancel)
      = ⟨((fetchRows c8_archive).take 2).map decodeRow, some ("", [])⟩ :=
  c8_read_cancellation c8_archive "f.bee" c8_cancel 2 (by decide) (by decide)
    (by decide)
    (fun m hm => by
      have hm0 : m = 0 := by omega
      subst hm0
      rfl)

/-! ### C2: partial-failure isolation on read -/

/-- **C2**: every fetched pixmap row whose blob fails to decode is
turned into an Error row carrying the original row id and the
human-readable failure message; the materialized item is a
`BeeErrorItem` whose `original_save_id` is the row's id; the read
continues through all remaining rows (the queue holds every fetched
row, decoded) and the completion report carries an empty error list. -/
theorem c2_partial_failure_isolation (ar : Archive) (filename : String)
    (r : ItemRow) (hmem : (r, (none : Blob)) ∈ fetchRows ar)
    (htype : r.rtype = "pixmap") :
    (decodeRow (r, none)).dtype = "error"
    ∧ (decodeRow (r, none)).save_id = r.id
    ∧ (decodeRow (r, none)).data = Payload.error img_error_text
    ∧ (materialize (decodeRow (r, none))).kind
        = ItemKind.error img_error_text (some r.id)
    ∧ (materialize (decodeRow (r, none))).original_save_id = some r.id
    ∧ decodeRow (r, none) ∈ (read ar filename (some (fun _ => false))).queue
    ∧ (read ar filename (some (fun _ => false))).queue
        = (fetchRows ar).map decodeRow
    ∧ (read ar filename (some (fun _ => false))).finished
        = some (filename, []) := by
  have hdec : decodeRow (r, none)
      = { save_id := r.id, dtype := "error", x := r.x, y := r.y, z := r.z,
          scale := r.scale, rotation := r.rotation, flip := r.flip,
          data := .error img_error_text, transient := none } := by
    rw [decodeRow]
    simp [htype]
  have hread : read ar filename (some (fun _ => false))
      = ⟨(fetchRows ar).map decodeRow, some (filename, [])⟩ := by
    rw [read, readLoop_nocancel_eq]
    simp
  refine ⟨by rw [hdec], by rw [hdec], by rw [hdec], ?_, ?_, ?_, ?_, ?_⟩
  · rw [hdec]
    rfl
  · rw [hdec]
    rfl
  · rw [hread]
    exact List.mem_map_of_mem decodeRow hmem
  · rw [hread]
  · rw [hread]

def c2_archive : Archive :=
  ⟨[⟨1, "pixmap", 0, 0, 0, 1, 0, 1, .pixmap none 1 false (0, 0, 0, 0)⟩,
    ⟨2, "text", 5, 6, 0, 1, 0, 1, .text "ok"⟩],
   [⟨1, "0001.png", 420, none⟩], 2⟩

theorem c2_witness :
    (materialize (decodeRow (⟨1, "pixmap", 0, 0, 0, 1, 0, 1,
        .pixmap none 1 false (0, 0, 0, 0)⟩, none))).original_save_id = some 1
    ∧ (read c2_archive "f.bee" (some (fun _ => false))).finished
        = some ("f.bee", []) :=
  ⟨(c2_partial_failure_isolation c2_archive "f.bee" _ (by decide) rfl).2.2.2.2.1,
   (c2_partial_failure_isolation c2_archive "f.bee"
      ⟨1, "pixmap", 0, 0, 0, 1, 0, 1, .pixmap none 1 false (0, 0, 0, 0)⟩
      (by decide) rfl).2.2.2.2.2.2.2⟩

/-! ### Write-loop infrastructure -/

lemma save_id_of_truthy {it : Item} {s : Nat}
    (h : it.save_id_truthy = some s) : it.save_id = some s := by
  cases hsv : it.save_id with
  | none => simp [Item.save_id_truthy, hsv] at h
  | some n =>
      by_cases hn : n = 0
      · simp [Item.save_id_truthy, hsv, hn] at h
      · simp [Item.save_id_truthy, hsv, hn] at h
        rw [h]

lemma le_foldr_max {x : Nat} : ∀ {l : List Nat}, x ∈ l → x ≤ l.foldr max 0 := by
  intro l
  induction l with
  | nil => intro h; cases h
  | cons a t ih =>
      intro h
      rcases List.mem_cons.mp h with h1 | h1
      · subst h1
        exact Nat.le_max_left _ _
      · exact le_trans (ih h1) (Nat.le_max_right _ _)

lemma foldr_max_of_le {b : Nat} : ∀ {l : List Nat}, (∀ x ∈ l, x ≤ b) →
    l.foldr max b = b := by
  intro l
  induction l with
  | nil => intro _; rfl
  | cons a t ih =>
      intro h
      have h1 : t.foldr max b = b := ih (fun x hx => h x (List.mem_cons_of_mem a hx))
      simp only [List.foldr_cons, h1]
      exact Nat.max_eq_right (h a (List.mem_cons_self a t))

lemma le_maxId_of_mem {ar : Archive} {x : Nat} (h : x ∈ ar.ids) :
    x ≤ ar.maxId := le_foldr_max h

lemma update_item_sqlar (ar : Archive) (it : Item) :
    (update_item ar it).sqlarTable = ar.sqlarTable := rfl

lemma updRow_id (r : ItemRow) (it : Item) : (updRow r it).id = r.id := rfl

lemma update_item_ids (ar : Archive) (it : Item) :
    (update_item ar it).ids = ar.ids := by
  simp only [update_item, Archive.ids, List.map_map]
  apply List.map_congr_left
  intro r _
  simp only [Function.comp]
  by_cases h : some r.id = it.save_id <;> simp [h, updRow]

lemma update_item_maxId (ar : Archive) (it : Item) :
    (update_item ar it).maxId = ar.maxId := by
  show (update_item ar it).ids.foldr max 0 = ar.ids.foldr max 0
  rw [update_item_ids]

lemma update_item_mem_of_ne {ar : Archive} {it : Item} {r : ItemRow}
    (hr : r ∈ ar.itemsTable) (hne : some r.id ≠ it.save_id) :
    r ∈ (update_item ar it).itemsTable := by
  show r ∈ ar.itemsTable.map
      (fun q => if some q.id = it.save_id then updRow q it else q)
  have h2 := List.mem_map_of_mem
      (fun q => if some q.id = it.save_id then updRow q it else q) hr
  simpa [if_neg hne] using h2

lemma update_item_mem_upd {ar : Archive} {it : Item} {r : ItemRow}
    (hr : r ∈ ar.itemsTable) (heq : some r.id = it.save_id) :
    updRow r it ∈ (update_item ar it).itemsTable := by
  show updRow r it ∈ ar.itemsTable.map
      (fun q => if some q.id = it.save_id then updRow q it else q)
  have h2 := List.mem_map_of_mem
      (fun q => if some q.id = it.save_id then updRow q it else q) hr
  simpa [if_pos heq] using h2

lemma insert_item_itemsTable (ar : Archive) (it : Item) :
    (insert_item ar it).1.itemsTable
      = ar.itemsTable ++
        [{ id := ar.nextRowId, rtype := it.ptype, x := it.x, y := it.y,
           z := it.z, scale := it.scale, rotation := it.rotation,
           flip := it.flip, data := it.get_extra_save_data }] := by
  cases h : ({ it with save_id := some ar.nextRowId } : Item).has_pixmap_to_bytes <;>
    simp [insert_item, h]

lemma insert_item_sqlar (ar : Archive) (it : Item) :
    ∃ extra : List SqlarRow,
      (insert_item ar it).1.sqlarTable = ar.sqlarTable ++ extra
      ∧ ∀ q ∈ extra, q.item_id = ar.nextRowId := by
  cases h : ({ it with save_id := some ar.nextRowId } : Item).has_pixmap_to_bytes
  · exact ⟨[], by simp [insert_item, h], by simp⟩
  · refine ⟨[⟨ar.nextRowId,
        ({ it with save_id := some ar.nextRowId } : Item).get_filename_for_export
          "png", 420,
        ({ it with save_id := some ar.nextRowId } : Item).pixmap_to_bytes⟩],
      by simp [insert_item, h], ?_⟩
    intro q hq
    rcases List.mem_singleton.mp hq with rfl
    rfl

lemma insert_item_maxId (ar : Archive) (it : Item) :
    (insert_item ar it).1.maxId = ar.nextRowId := by
  have hids : (insert_item ar it).1.ids = ar.ids ++ [ar.nextRowId] := by
    show (insert_item ar it).1.itemsTable.map (·.id) = _
    rw [insert_item_itemsTable]
    simp [Archive.ids]
  show (insert_item ar it).1.ids.foldr max 0 = _
  rw [hids, List.foldr_append]
  simp only [List.foldr_cons, List.foldr_nil]
  have hb : max ar.nextRowId 0 = ar.nextRowId := Nat.max_eq_left (Nat.zero_le _)
  rw [hb]
  exact foldr_max_of_le (fun x hx =>
    le_trans (le_maxId_of_mem hx) (Nat.le_succ _))

lemma insert_item_mem (ar : Archive) (it : Item) {r : ItemRow}
    (hr : r ∈ ar.itemsTable) : r ∈ (insert_item ar it).1.itemsTable := by
  rw [insert_item_itemsTable]
  exact List.mem_append_left _ hr

/-- Along the item loop the sqlar table only grows, every appended blob
row carries a fresh id above the initial `maxId`, and `maxId` is
monotone. -/
lemma writeLoop_sqlar_maxId :
    ∀ (items : List Item) (ar : Archive) (td : List Nat),
      ar.maxId ≤ (writeLoop items ar td).archive.maxId
      ∧ ∃ extra,
          (writeLoop items ar td).archive.sqlarTable = ar.sqlarTable ++ extra
          ∧ ∀ q ∈ extra, ar.maxId < q.item_id := by
  intro items
  induction items with
  | nil =>
      intro ar td
      exact ⟨le_refl _, [], by simp [writeLoop, LoopResult.archive], by simp⟩
  | cons it rest ih =>
      intro ar td
      rw [writeLoop]
      cases hs : it.save_id_truthy with
      | some s =>
          simp only []
          by_cases hmem : s ∈ td
          · rw [if_pos hmem]
            obtain ⟨h1, extra, h2, h3⟩ := ih (update_item ar it) (td.erase s)
            refine ⟨?_, extra, ?_, ?_⟩
            · rw [update_item_maxId] at h1
              exact h1
            · rw [h2, update_item_sqlar]
            · intro q hq
              have := h3 q hq
              rw [update_item_maxId] at this
              exact this
          · rw [if_neg hmem]
            refine ⟨?_, [], ?_, by simp⟩
            · show ar.maxId ≤ (update_item ar it).maxId
              rw [update_item_maxId]
            · show (update_item ar it).sqlarTable = ar.sqlarTable ++ []
              rw [update_item_sqlar, List.append_nil]
      | none =>
          simp only []
          obtain ⟨h1, extra, h2, h3⟩ := ih (insert_item ar it).1 td
          obtain ⟨e0, he0, he0id⟩ := insert_item_sqlar ar it
          refine ⟨?_, e0 ++ extra, ?_, ?_⟩
          · calc ar.maxId ≤ ar.nextRowId := Nat.le_succ _
              _ = (insert_item ar it).1.maxId := (insert_item_maxId ar it).symm
              _ ≤ _ := h1
          · rw [h2, he0, List.append_assoc]
          · intro q hq
            rcases List.mem_append.mp hq with hq1 | hq1
            · rw [he0id q hq1]
              exact Nat.lt_succ_self _
            · have h4 := h3 q hq1
              rw [insert_item_maxId] at h4
              exact lt_of_le_of_lt (Nat.le_succ _) h4

/-- Unfolding equation for the loop at an item with a truthy save id. -/
lemma writeLoop_cons_truthy {it : Item} {s : Nat}
    (hs : it.save_id_truthy = some s) (rest : List Item) (ar : Archive)
    (td : List Nat) :
    writeLoop (it :: rest) ar td =
      if s ∈ td then writeLoop rest (update_item ar it) (td.erase s)
      else .keyError (update_item ar it) s := by
  rw [writeLoop, hs]

/-- Unfolding equation for the loop at an item with a falsy save id. -/
lemma writeLoop_cons_falsy {it : Item} (hs : it.save_id_truthy = none)
    (rest : List Item) (ar : Archive) (td : List Nat) :
    writeLoop (it :: rest) ar td = writeLoop rest (insert_item ar it).1 td := by
  rw [writeLoop, hs]

/-- Row identities are never lost by the item loop: every id present in
the incoming table is present in the resulting table. -/
lemma writeLoop_id_present :
    ∀ (items : List Item) (ar : Archive) (td : List Nat) (x : ItemRow),
      x ∈ ar.itemsTable →
      ∃ x' ∈ (writeLoop items ar td).archive.itemsTable, x'.id = x.id := by
  intro items
  induction items with
  | nil =>
      intro ar td x hx
      exact ⟨x, hx, rfl⟩
  | cons it rest ih =>
      intro ar td x hx
      cases hs : it.save_id_truthy with
      | some s =>
          rw [writeLoop_cons_truthy hs]
          by_cases hmem : s ∈ td
          · rw [if_pos hmem]
            by_cases hid : some x.id = it.save_id
            · obtain ⟨x', hx', hid'⟩ :=
                ih (update_item ar it) (td.erase s) (updRow x it)
                  (update_item_mem_upd hx hid)
              exact ⟨x', hx', hid'⟩
            · exact ih (update_item ar it) (td.erase s) x
                (update_item_mem_of_ne hx hid)
          · rw [if_neg hmem]
            by_cases hid : some x.id = it.save_id
            · exact ⟨updRow x it, update_item_mem_upd hx hid, rfl⟩
            · exact ⟨x, update_item_mem_of_ne hx hid, rfl⟩
      | none =>
          rw [writeLoop_cons_falsy hs]
          exact ih (insert_item ar it).1 td x (insert_item_mem ar it hx)

/-- The remaining delete set of a successful loop is a subset of the
incoming one (ids are only ever erased). -/
lemma writeLoop_td_subset :
    ∀ (items : List Item) (ar : Archive) (td td' : List Nat) (ar' : Archive),
      writeLoop items ar td = .ok ar' td' → td' ⊆ td := by
  intro items
  induction items with
  | nil =>
      intro ar td td' ar' h
      rw [writeLoop] at h
      cases h
      exact fun _ hx => hx
  | cons it rest ih =>
      intro ar td td' ar' h
      cases hs : it.save_id_truthy with
      | some s =>
          rw [writeLoop_cons_truthy hs] at h
          by_cases hmem : s ∈ td
          · rw [if_pos hmem] at h
            exact fun x hx => List.erase_subset _ _ (ih _ _ _ _ h hx)
          · rw [if_neg hmem] at h
            cases h
      | none =>
          rw [writeLoop_cons_falsy hs] at h
          exact ih _ _ _ _ h

/-- On a successful loop, every processed item's truthy save id was a
member of the incoming delete set. -/
lemma writeLoop_truthy_mem_td :
    ∀ (items : List Item) (ar : Archive) (td td' : List Nat) (ar' : Archive)
      (it : Item) (s : Nat),
      writeLoop items ar td = .ok ar' td' → it ∈ items →
      it.save_id_truthy = some s → s ∈ td := by
  intro items
  induction items with
  | nil =>
      intro ar td td' ar' it s _ hmem
      cases hmem
  | cons hd rest ih =>
      intro ar td td' ar' it s h hmem hs
      rcases List.mem_cons.mp hmem with rfl | hmem'
      · rw [writeLoop_cons_truthy hs] at h
        by_cases hm : s ∈ td
        · exact hm
        · rw [if_neg hm] at h
          cases h
      · cases hhd : hd.save_id_truthy with
        | some s2 =>
            rw [writeLoop_cons_truthy hhd] at h
            by_cases hm : s2 ∈ td
            · rw [if_pos hm] at h
              exact List.erase_subset _ _ (ih _ _ _ _ it s h hmem' hs)
            · rw [if_neg hm] at h
              cases h
        | none =>
            rw [writeLoop_cons_falsy hhd] at h
            exact ih _ _ _ _ it s h hmem' hs

/-- On a successful loop over a duplicate-free delete set, a processed
item's truthy save id is gone from the remaining delete set. -/
lemma writeLoop_truthy_not_mem_td_final :
    ∀ (items : List Item) (ar : Archive) (td td' : List Nat) (ar' : Archive)
      (it : Item) (s : Nat),
      writeLoop items ar td = .ok ar' td' → it ∈ items →
      it.save_id_truthy = some s → td.Nodup → s ∉ td' := by
  intro items
  induction items with
  | nil =>
      intro ar td td' ar' it s _ hmem
      cases hmem
  | cons hd rest ih =>
      intro ar td td' ar' it s h hmem hs hnd
      rcases List.mem_cons.mp hmem with rfl | hmem'
      · rw [writeLoop_cons_truthy hs] at h
        by_cases hm : s ∈ td
        · rw [if_pos hm] at h
          intro hmem2
          have h1 := writeLoop_td_subset _ _ _ _ _ h hmem2
          exact ((List.Nodup.mem_erase_iff hnd).mp h1).1 rfl
        · rw [if_neg hm] at h
          cases h
      · cases hhd : hd.save_id_truthy with
        | some s2 =>
            rw [writeLoop_cons_truthy hhd] at h
            by_cases hm : s2 ∈ td
            · rw [if_pos hm] at h
              exact ih _ _ _ _ it s h hmem' hs (hnd.erase s2)
            · rw [if_neg hm] at h
              cases h
        | none =>
            rw [writeLoop_cons_falsy hhd] at h
            exact ih _ _ _ _ it s h hmem' hs hnd

/-- A row whose id is outside the delete set is carried through a
successful loop verbatim: no processed item can have updated it. -/
lemma writeLoop_row_preserved :
    ∀ (items : List Item) (ar : Archive) (td td' : List Nat) (ar' : Archive)
      (x : ItemRow),
      writeLoop items ar td = .ok ar' td' → x ∈ ar.itemsTable →
      x.id ∉ td → x ∈ ar'.itemsTable := by
  intro items
  induction items with
  | nil =>
      intro ar td td' ar' x h hx _
      rw [writeLoop] at h
      cases h
      exact hx
  | cons hd rest ih =>
      intro ar td td' ar' x h hx hxtd
      cases hhd : hd.save_id_truthy with
      | some s2 =>
          rw [writeLoop_cons_truthy hhd] at h
          by_cases hm : s2 ∈ td
          · rw [if_pos hm] at h
            have hne : some x.id ≠ hd.save_id := by
              rw [save_id_of_truthy hhd]
              intro hcon
              cases hcon
              exact hxtd hm
            exact ih _ _ _ _ x h (update_item_mem_of_ne hx hne)
              (fun hc => hxtd (List.erase_subset _ _ hc))
          · rw [if_neg hm] at h
            cases h
      | none =>
          rw [writeLoop_cons_falsy hhd] at h
          exact ih _ _ _ _ x h (insert_item_mem ar hd hx) hxtd

/-- The updated version of an item's row survives a successful loop:
when `it` with truthy save id `s` is among the processed items and row
`r` is an archive row with id `s`, the row resulting from `it`'s
UPDATE statement is in the final table. -/
lemma writeLoop_updates_row :
    ∀ (items : List Item) (ar : Archive) (td td' : List Nat) (ar' : Archive)
      (it : Item) (s : Nat) (r : ItemRow),
      writeLoop items ar td = .ok ar' td' → it ∈ items →
      it.save_id_truthy = some s → td.Nodup →
      r ∈ ar.itemsTable → r.id = s → updRow r it ∈ ar'.itemsTable := by
  intro items
  induction items with
  | nil =>
      intro ar td td' ar' it s r _ hmem
      cases hmem
  | cons hd rest ih =>
      intro ar td td' ar' it s r h hmem hs hnd hr hrid
      rcases List.mem_cons.mp hmem with rfl | hmem'
      · rw [writeLoop_cons_truthy hs] at h
        by_cases hm : s ∈ td
        · rw [if_pos hm] at h
          have heq : some r.id = it.save_id := by
            rw [save_id_of_truthy hs, hrid]
          have h1 : updRow r it ∈ (update_item ar it).itemsTable :=
            update_item_mem_upd hr heq
          refine writeLoop_row_preserved _ _ _ _ _ _ h h1 ?_
          rw [updRow_id, hrid]
          intro hc
          exact ((List.Nodup.mem_erase_iff hnd).mp hc).1 rfl
        · rw [if_neg hm] at h
          cases h
      · cases hhd : hd.save_id_truthy with
        | some s2 =>
            rw [writeLoop_cons_truthy hhd] at h
            by_cases hm : s2 ∈ td
            · rw [if_pos hm] at h
              have hs2 : s ∈ td.erase s2 :=
                writeLoop_truthy_mem_td _ _ _ _ _ it s h hmem' hs
              have hne : s ≠ s2 := by
                intro hcon
                subst hcon
                exact ((List.Nodup.mem_erase_iff hnd).mp hs2).1 rfl
              have hner : some r.id ≠ hd.save_id := by
                rw [save_id_of_truthy hhd, hrid]
                intro hcon
                cases hcon
                exact hne rfl
              exact ih _ _ _ _ it s r h hmem' hs (hnd.erase s2)
                (update_item_mem_of_ne hr hner) hrid
            · rw [if_neg hm] at h
              cases h
        | none =>
            rw [writeLoop_cons_falsy hhd] at h
            exact ih _ _ _ _ it s r h hmem' hs hnd
              (insert_item_mem ar hd hr) hrid

/-- An item among the processed ones whose truthy save id is absent
from the delete set forces the loop into the `KeyError` branch. -/
lemma writeLoop_keyError_of_missing :
    ∀ (items : List Item) (ar : Archive) (td : List Nat) (it : Item) (s : Nat),
      it ∈ items → it.save_id_truthy = some s → s ∉ td →
      (writeLoop items ar td).isKeyError = true := by
  intro items
  induction items with
  | nil =>
      intro ar td it s hmem
      cases hmem
  | cons hd rest ih =>
      intro ar td it s hmem hs hnot
      rcases List.mem_cons.mp hmem with rfl | hmem'
      · rw [writeLoop_cons_truthy hs, if_neg hnot]
        rfl
      · cases hhd : hd.save_id_truthy with
        | some s2 =>
            rw [writeLoop_cons_truthy hhd]
            by_cases hm : s2 ∈ td
            · rw [if_pos hm]
              exact ih _ _ it s hmem' hs
                (fun hc => hnot (List.erase_subset _ _ hc))
            · rw [if_neg hm]
              rfl
        | none =>
            rw [writeLoop_cons_falsy hhd]
            exact ih _ _ it s hmem' hs hnot

/-- When every processed truthy save id is in the (duplicate-free)
delete set and the truthy ids are pairwise distinct, the loop succeeds. -/
lemma writeLoop_ok_of_covered :
    ∀ (items : List Item) (ar : Archive) (td : List Nat),
      (∀ it ∈ items, ∀ s, it.save_id_truthy = some s → s ∈ td) →
      (items.filterMap Item.save_id_truthy).Nodup → td.Nodup →
      (writeLoop items ar td).isKeyError = false := by
  intro items
  induction items with
  | nil =>
      intro ar td _ _ _
      rfl
  | cons hd rest ih =>
      intro ar td hcov hnd hndtd
      cases hhd : hd.save_id_truthy with
      | some s2 =>
          have hm : s2 ∈ td := hcov hd (List.mem_cons_self hd rest) s2 hhd
          rw [writeLoop_cons_truthy hhd, if_pos hm]
          have hnds : (rest.filterMap Item.save_id_truthy).Nodup ∧
              s2 ∉ rest.filterMap Item.save_id_truthy := by
            rw [List.filterMap_cons, hhd] at hnd
            exact ⟨(List.nodup_cons.mp hnd).2, (List.nodup_cons.mp hnd).1⟩
          apply ih
          · intro it hit s hs
            have hmem : s ∈ td := hcov it (List.mem_cons_of_mem hd hit) s hs
            have hne : s ≠ s2 := by
              intro hcon
              subst hcon
              exact hnds.2 (List.mem_filterMap.mpr ⟨it, hit, hs⟩)
            exact (List.mem_erase_of_ne hne).mpr hmem
          · exact hnds.1
          · exact hndtd.erase s2
      | none =>
          rw [writeLoop_cons_falsy hhd]
          apply ih
          · intro it hit s hs
            exact hcov it (List.mem_cons_of_mem hd hit) s hs
          · rw [List.filterMap_cons, hhd] at hnd
            exact hnd
          · exact hndtd

lemma mem_keepIds {sc : Scene} {e : Item} {s : Nat}
    (he : e ∈ sc.items_by_type "error") (hs : e.original_save_id = some s) :
    s ∈ keepIds sc :=
  List.mem_filterMap.mpr ⟨e, he, hs⟩

lemma not_mem_to_delete_init {sc : Scene} {ar : Archive} {s : Nat}
    (h : s ∈ keepIds sc) : s ∉ to_delete_init sc ar := by
  intro hmem
  rw [to_delete_init, List.mem_dedup] at hmem
  have h2 := (List.mem_filter.mp hmem).2
  simp only [decide_not, Bool.not_eq_true', decide_eq_false_iff_not] at h2
  exact h2 h

lemma to_delete_init_subset_ids {sc : Scene} {ar : Archive} :
    to_delete_init sc ar ⊆ ar.ids := by
  intro x hx
  rw [to_delete_init, List.mem_dedup] at hx
  exact (List.mem_filter.mp hx).1

lemma to_delete_init_nodup (sc : Scene) (ar : Archive) :
    (to_delete_init sc ar).Nodup :=
  List.nodup_dedup _

/-! ### C4: delete-protection invariant -/

/-- **C4**: for every Error item in the scene, the row id in its
`original_save_id` is excluded from the computed `to_delete` set, is
never among the ids `write_data` deletes, and its `items` row (by id)
and `sqlar` rows survive the write — in both the successful and the
`KeyError` outcome. -/
theorem c4_delete_protection (sc : Scene) (ar : Archive) (e : Item) (s : Nat)
    (he : e ∈ sc.items_by_type "error") (hs : e.original_save_id = some s) :
    s ∉ to_delete_init sc ar
    ∧ s ∉ (write_data sc ar).deletedIds
    ∧ (∀ r ∈ ar.itemsTable, r.id = s →
        ∃ r' ∈ (write_data sc ar).archive.itemsTable, r'.id = s)
    ∧ (∀ q ∈ ar.sqlarTable, q.item_id = s →
        q ∈ (write_data sc ar).archive.sqlarTable) := by
  have hkeep := mem_keepIds he hs
  have hnot : s ∉ to_delete_init sc ar := not_mem_to_delete_init hkeep
  cases hres : writeLoop sc.items_for_save ar (to_delete_init sc ar) with
  | ok arL tdF =>
      have hwd : write_data sc ar = .ok (delete_items arL tdF) tdF := by
        rw [write_data, hres]
      have htd : tdF ⊆ to_delete_init sc ar :=
        writeLoop_td_subset _ _ _ _ _ hres
      have hsnot : s ∉ tdF := fun hc => hnot (htd hc)
      refine ⟨hnot, ?_, ?_, ?_⟩
      · rw [hwd]
        exact hsnot
      · intro r hr hrid
        obtain ⟨x', hx', hid⟩ :=
          writeLoop_id_present sc.items_for_save ar (to_delete_init sc ar) r hr
        rw [hres] at hx'
        have hxid : x'.id ∉ tdF := by
          rw [hid, hrid]
          exact hsnot
        refine ⟨x', ?_, hid.trans hrid⟩
        rw [hwd]
        exact List.mem_filter.mpr ⟨hx', by simpa using hxid⟩
      · intro q hq hqid
        obtain ⟨_, extra, hsq, _⟩ :=
          writeLoop_sqlar_maxId sc.items_for_save ar (to_delete_init sc ar)
        rw [hres] at hsq
        simp only [LoopResult.archive] at hsq
        have hql : q ∈ arL.sqlarTable := by
          rw [hsq]
          exact List.mem_append_left _ hq
        have hqnot : q.item_id ∉ tdF := by
          rw [hqid]
          exact hsnot
        rw [hwd]
        exact List.mem_filter.mpr ⟨hql, by simpa using hqnot⟩
  | keyError arL m =>
      have hwd : write_data sc ar = .keyError arL m := by
        rw [write_data, hres]
      refine ⟨hnot, ?_, ?_, ?_⟩
      · rw [hwd]
        simp [WDResult.deletedIds]
      · intro r hr hrid
        obtain ⟨x', hx', hid⟩ :=
          writeLoop_id_present sc.items_for_save ar (to_delete_init sc ar) r hr
        rw [hres] at hx'
        refine ⟨x', ?_, hid.trans hrid⟩
        rw [hwd]
        exact hx'
      · intro q hq _
        obtain ⟨_, extra, hsq, _⟩ :=
          writeLoop_sqlar_maxId sc.items_for_save ar (to_delete_init sc ar)
        rw [hres] at hsq
        simp only [LoopResult.archive] at hsq
        rw [hwd]
        show q ∈ arL.sqlarTable
        rw [hsq]
        exact List.mem_append_left _ hq

def c4_scene : Scene :=
  ⟨[mkItem (.error "broken image" (some 1)),
    ⟨some 2, 1, 1, 0, 1, 0, 1, .text "keepme"⟩]⟩

def c4_archive : Archive :=
  ⟨[⟨1, "pixmap", 0, 0, 0, 1, 0, 1, .pixmap none 1 false (0, 0, 0, 0)⟩,
    ⟨2, "text", 0, 0, 0, 1, 0, 1, .text "keepme"⟩],
   [⟨1, "0001.png", 420, some 9⟩], 2⟩

theorem c4_witness :
    1 ∉ to_delete_init c4_scene c4_archive
    ∧ 1 ∉ (write_data c4_scene c4_archive).deletedIds :=
  ⟨(c4_delete_protection c4_scene c4_archive
      (mkItem (.error "broken image" (some 1))) 1 (by decide) rfl).1,
   (c4_delete_protection c4_scene c4_archive
      (mkItem (.error "broken image" (some 1))) 1 (by decide) rfl).2.1⟩

/-! ### C9: binary payload written once, immutable thereafter -/

/-- **C9**: in a successful `write_data` on an existing archive, an
item that already has a (truthy) `save_id` leaves the `sqlar` table
untouched at its id — its blob rows are exactly the ones that were
there before, none modified, none added — while its `items` row is the
old row with geometry and JSON data replaced by the item's current
values (the UPDATE of `update_item` touches nothing else of the row). -/
theorem c9_binary_payload_immutable (sc : Scene) (ar : Archive) (it : Item)
    (s : Nat) (ar' : Archive) (deleted : List Nat)
    (hmem : it ∈ sc.items_for_save) (hs : it.save_id_truthy = some s)
    (hok : write_data sc ar = .ok ar' deleted) :
    ar'.sqlarTable.filter (fun q => q.item_id = s)
      = ar.sqlarTable.filter (fun q => q.item_id = s)
    ∧ ∃ r ∈ ar.itemsTable, r.id = s ∧ updRow r it ∈ ar'.itemsTable := by
  cases hres : writeLoop sc.items_for_save ar (to_delete_init sc ar) with
  | keyError arL m =>
      rw [write_data, hres] at hok
      cases hok
  | ok arL tdF =>
      rw [write_data, hres] at hok
      injection hok with he1 he2
      subst he1
      subst he2
      have hnd := to_delete_init_nodup sc ar
      have hstd : s ∈ to_delete_init sc ar :=
        writeLoop_truthy_mem_td _ _ _ _ _ it s hres hmem hs
      have hsids : s ∈ ar.ids := to_delete_init_subset_ids hstd
      obtain ⟨r, hr, hrid⟩ := List.mem_map.mp hsids
      have hrow : updRow r it ∈ arL.itemsTable :=
        writeLoop_updates_row _ _ _ _ _ it s r hres hmem hs hnd hr hrid
      have hsnot : s ∉ tdF :=
        writeLoop_truthy_not_mem_td_final _ _ _ _ _ it s hres hmem hs hnd
      constructor
      · obtain ⟨_, extra, hsq, hbig⟩ :=
          writeLoop_sqlar_maxId sc.items_for_save ar (to_delete_init sc ar)
        rw [hres] at hsq
        simp only [LoopResult.archive] at hsq
        have hsmax : s ≤ ar.maxId := le_maxId_of_mem hsids
        show ((arL.sqlarTable.filter
            (fun q => q.item_id ∉ tdF)).filter (fun q => q.item_id = s)) = _
        rw [List.filter_filter, hsq, List.filter_append]
        have hextra : extra.filter
            (fun q => decide (q.item_id = s) && decide (q.item_id ∉ tdF)) = [] := by
          apply List.filter_eq_nil_iff.mpr
          intro q hq
          have hql := hbig q hq
          simp only [Bool.and_eq_true, decide_eq_true_eq]
          intro hc
          omega
        rw [hextra, List.append_nil]
        apply List.filter_congr
        intro q _
        by_cases hqs : q.item_id = s
        · simp [hqs, hsnot]
        · simp [hqs]
      · refine ⟨r, hr, hrid, ?_⟩
        have hxid : (updRow r it).id ∉ tdF := by
          rw [updRow_id, hrid]
          exact hsnot
        exact List.mem_filter.mpr ⟨hrow, by simpa using hxid⟩

def c9_item : Item :=
  ⟨some 1, 10, 20, 3, 2, 90, 1,
   .pixmap (some "img.png") 1 false (0, 0, 5, 5) (some 7)⟩

def c9_scene : Scene := ⟨[c9_item]⟩

def c9_archive : Archive :=
  ⟨[⟨1, "pixmap", 0, 0, 0, 1, 0, 1, .pixmap (some "img.png") 1 false (0, 0, 5, 5)⟩],
   [⟨1, "0001-img.png", 420, some 7⟩], 2⟩

theorem c9_witness :
    (write_data c9_scene c9_archive).archive.sqlarTable.filter
        (fun q => q.item_id = 1)
      = c9_archive.sqlarTable.filter (fun q => q.item_id = 1) :=
  (c9_binary_payload_immutable c9_scene c9_archive c9_item 1
    (write_data c9_scene c9_archive).archive
    (write_data c9_scene c9_archive).deletedIds
    (by decide) (by decide) (by decide)).1

/-! ### C10: the unconditional `to_delete.remove` -/

def c10_scene : Scene :=
  ⟨[mkItem (.error "failed" (some 1)),
    ⟨some 1, 0, 0, 0, 1, 0, 1, .text "t"⟩]⟩

def c10_archive : Archive :=
  ⟨[⟨1, "text", 0, 0, 0, 1, 0, 1, .text "t"⟩], [], 2⟩

/-- **C10 counterexample**: the claim's unreachability clause fails —
here every non-null `save_id` of a live persistable item does occur as
a row id in the items table, yet `write_data` still hits the `KeyError`
branch, because the id is also protected by a visible Error item and
was therefore subtracted from `to_delete` before the loop. -/
theorem c10_counterexample :
    ((c10_scene.items_for_save.filterMap Item.save_id).all
        (fun s => decide (s ∈ c10_archive.ids)) = true)
    ∧ (write_data c10_scene c10_archive).isKeyError = true := by
  decide

/-- **C10 amended**: `write_data` removes each saved item's truthy
save id from `to_delete` unconditionally, so a live persistable item
with a truthy `save_id` absent from the archive's items table makes the
write raise `KeyError` to the error boundary; the error branch is
unreachable exactly under the stronger precondition that every truthy
save id occurs in the items table, is not protected by any visible
Error item's `original_save_id`, and the truthy save ids are pairwise
distinct. -/
theorem c10_amended_unconditional_remove (sc : Scene) (ar : Archive) :
    (∀ it ∈ sc.items_for_save, ∀ s, it.save_id_truthy = some s →
        s ∉ ar.ids → (write_data sc ar).isKeyError = true)
    ∧ ((∀ it ∈ sc.items_for_save, ∀ s, it.save_id_truthy = some s →
          s ∈ ar.ids ∧ s ∉ keepIds sc) →
       (sc.items_for_save.filterMap Item.save_id_truthy).Nodup →
       (write_data sc ar).isKeyError = false) := by
  constructor
  · intro it hit s hs hnotids
    have hnottd : s ∉ to_delete_init sc ar := fun hc =>
      hnotids (to_delete_init_subset_ids hc)
    have hloop := writeLoop_keyError_of_missing sc.items_for_save ar
      (to_delete_init sc ar) it s hit hs hnottd
    cases hres : writeLoop sc.items_for_save ar (to_delete_init sc ar) with
    | ok arL tdF =>
        rw [hres] at hloop
        cases hloop
    | keyError arL m =>
        rw [write_data, hres]
        rfl
  · intro hcov hnd
    have hloop := writeLoop_ok_of_covered sc.items_for_save ar
      (to_delete_init sc ar)
      (by
        intro it hit s hs
        obtain ⟨h1, h2⟩ := hcov it hit s hs
        rw [to_delete_init, List.mem_dedup]
        exact List.mem_filter.mpr ⟨h1, by simpa using h2⟩)
      hnd (to_delete_init_nodup sc ar)
    cases hres : writeLoop sc.items_for_save ar (to_delete_init sc ar) with
    | ok arL tdF =>
        rw [write_data, hres]
        rfl
    | keyError arL m =>
        rw [hres] at hloop
        cases hloop

def c10w_scene : Scene := ⟨[⟨some 5, 0, 0, 0, 1, 0, 1, .text "x"⟩]⟩

def c10w_archive : Archive := ⟨[], [], 2⟩

def c10w_item : Item := ⟨some 5, 0, 0, 0, 1, 0, 1, .text "x"⟩

def c10w2_scene : Scene := ⟨[⟨some 1, 2, 2, 0, 1, 0, 1, .text "y"⟩]⟩

def c10w2_archive : Archive :=
  ⟨[⟨1, "text", 0, 0, 0, 1, 0, 1, .text "y"⟩], [], 2⟩

def c10w2_item : Item := ⟨some 1, 2, 2, 0, 1, 0, 1, .text "y"⟩

theorem c10_amended_witness :
    (write_data c10w_scene c10w_archive).isKeyError = true
    ∧ (write_data c10w2_scene c10w2_archive).isKeyError = false :=
  ⟨(c10_amended_unconditional_remove c10w_scene c10w_archive).1
      c10w_item (by decide) 5 (by decide) (by decide),
   (c10_amended_unconditional_remove c10w2_scene c10w2_archive).2
      (by
        intro it hit s hs
        have hit1 : it = c10w2_item := by
          have h0 := hit
          simp [c10w2_scene, Scene.items_for_save, c10w2_item] at h0
          exact h0.1
        subst hit1
        have hs1 : s = 1 := by
          have hv : c10w2_item.save_id_truthy = some 1 := by decide
          rw [hv] at hs
          exact (Option.some_inj.mp hs).symm
        subst hs1
        exact ⟨by decide, by decide⟩)
      (by decide)⟩

end Beeref
